import Mathlib

/-!
Verification of the OpenClaw memory-suite engine.

Shallow embedding of the reusable memory engine shared by the plugin
variants (goal, timeline, entity, episodic/procedural, rerank, meta):
JavaScript numbers used as scores/gaps are modelled as rationals `ℚ`
(the decay formula, which calls `Math.exp`, is modelled over `ℝ`),
timestamps and character counts as naturals, and strings as `String` /
`List Char`.  Each definition is translated from the corresponding
source function and keeps its name.
-/

/- ------------------------------------------------------------------
   ClusterSelector: `selectTopCluster` from the rerank plugin.
   ------------------------------------------------------------------ -/

/-- A reranked candidate document: an opaque payload identifier plus the
relevance score used by the cluster selector. -/
structure ScoredDoc where
  payload : ℕ
  score : ℚ
deriving DecidableEq, Repr

/-- Configuration fields of the rerank plugin consumed by
`selectTopCluster` (`minScore`, `minGap`, `maxDocuments`). -/
structure RerankCfg where
  minScore : ℚ
  minGap : ℚ
  maxDocuments : ℕ
deriving DecidableEq, Repr

/-- The `for` loop of `selectTopCluster`: `acc` is the `selected` array
in reverse order (head = most recently pushed item).  Items below
`minScore` are skipped with `continue`; the first qualifying item is
pushed and the loop continues without the count check; later items are
pushed while the drop from the previously pushed item is at most
`minGap`, breaking either on a gap violation or, after a push, once the
selection reaches `maxDocuments`. -/
def selectLoop (cfg : RerankCfg) : List ScoredDoc → List ScoredDoc → List ScoredDoc
  | acc, [] => acc.reverse
  | acc, item :: rest =>
    if item.score < cfg.minScore then
      selectLoop cfg acc rest
    else
      match acc with
      | [] => selectLoop cfg [item] rest
      | prev :: _ =>
        if prev.score - item.score ≤ cfg.minGap then
          if cfg.maxDocuments ≤ (item :: acc).length then (item :: acc).reverse
          else selectLoop cfg (item :: acc) rest
        else acc.reverse

/-- `selectTopCluster(sorted, cfg)` from the rerank plugin: run the
selection loop, and fall back to the first `maxDocuments` input items
when nothing was selected; the result is always cut to `maxDocuments`
by the final `slice`. -/
def selectTopCluster (sorted : List ScoredDoc) (cfg : RerankCfg) : List ScoredDoc :=
  let selected := selectLoop cfg [] sorted
  if selected.length = 0 then sorted.take cfg.maxDocuments
  else selected.take cfg.maxDocuments

/-- Modelled from the spec (§4.2 ClusterSelector), for comparison with
the source `selectTopCluster`: walk the descending-sorted list, skip
(without selecting and without stopping) items below `minScore`; after
the first selected item keep accepting only while the drop from the
previous selected item's score is ≤ `maxGap`; stop at the first gap
break or once `maxCount` items are selected.  `prev` is the score of
the previous selected item, the `ℕ` argument the remaining count. -/
def selectClusterSpecWalk (minScore maxGap : ℚ) : Option ℚ → ℕ → List ScoredDoc → List ScoredDoc
  | _, _, [] => []
  | _, 0, _ :: _ => []
  | none, Nat.succ c, item :: rest =>
    if item.score < minScore then selectClusterSpecWalk minScore maxGap none (Nat.succ c) rest
    else item :: selectClusterSpecWalk minScore maxGap (some item.score) c rest
  | some p, Nat.succ c, item :: rest =>
    if item.score < minScore then selectClusterSpecWalk minScore maxGap (some p) (Nat.succ c) rest
    else if p - item.score ≤ maxGap then
      item :: selectClusterSpecWalk minScore maxGap (some item.score) c rest
    else []

/-- Modelled from the spec (§4.2 ClusterSelector): the walk above plus
the fallback — if nothing was selected, return the first `maxCount`
items of the input unmodified. -/
def selectClusterSpec (sorted : List ScoredDoc) (cfg : RerankCfg) : List ScoredDoc :=
  let sel := selectClusterSpecWalk cfg.minScore cfg.minGap none cfg.maxDocuments sorted
  if sel.isEmpty then sorted.take cfg.maxDocuments else sel

/-- The same walk with the count bound removed, used to relate the
source loop and the spec walk: both are count-limited truncations of
this unbounded walk. -/
def walkNoCount (minScore maxGap : ℚ) : Option ℚ → List ScoredDoc → List ScoredDoc
  | _, [] => []
  | none, item :: rest =>
    if item.score < minScore then walkNoCount minScore maxGap none rest
    else item :: walkNoCount minScore maxGap (some item.score) rest
  | some p, item :: rest =>
    if item.score < minScore then walkNoCount minScore maxGap (some p) rest
    else if p - item.score ≤ maxGap then
      item :: walkNoCount minScore maxGap (some item.score) rest
    else []

/-- The score of the previously pushed item seen by the source loop:
`selected[selected.length - 1]` on the reversed accumulator. -/
def accPrevScore : List ScoredDoc → Option ℚ
  | [] => none
  | a :: _ => some a.score

/- ------------------------------------------------------------------
   RoutingLedger: session finalization and feedback
   (memory-meta/index.js and _shared/meta-routing.js).
   ------------------------------------------------------------------ -/

/-- `Math.round(num/den)` for natural `num`, `den`: round half up,
computed exactly as `⌊(2·num + den) / (2·den)⌋`. -/
def jsRoundDiv (num den : ℕ) : ℕ := (2 * num + den) / (2 * den)

/-- The process-wide `routing_stats` aggregate of `meta.json`.  A field
read as `x || 0` in the source is a plain `ℕ` (absence behaves as `0`);
`after_routing_avg` is an `Option` because `updateTokenSavings` tests
it with `!== undefined`. -/
structure RoutingStats where
  sessions : ℕ
  total_session_chars : ℕ
  total_session_activations : ℕ
  after_routing_avg : Option ℕ
  last_session_chars : ℕ
  last_session_activations : ℕ
  current_session_chars : ℕ
  current_session_activations : ℕ
deriving DecidableEq, Repr

/-- `finalizeRoutingSession` from memory-meta: fold the current-session
counters into the lifetime totals, increment `sessions`, recompute the
all-time average (`Math.round(total_session_chars / sessions)`, with
the source's `stats.sessions ? … : 0` truthiness guard), remember the
last session's counters and zero the current-session counters. -/
def finalizeRoutingSession (stats : RoutingStats) : RoutingStats :=
  let sessionChars := stats.current_session_chars
  let sessionActs := stats.current_session_activations
  let sessions1 := stats.sessions + 1
  let total1 := stats.total_session_chars + sessionChars
  let totalActs1 := stats.total_session_activations + sessionActs
  { sessions := sessions1
    total_session_chars := total1
    total_session_activations := totalActs1
    after_routing_avg := some (if sessions1 ≠ 0 then jsRoundDiv total1 sessions1 else 0)
    last_session_chars := sessionChars
    last_session_activations := sessionActs
    current_session_chars := 0
    current_session_activations := 0 }

/-- A per-layer ledger entry (`routing_stats.layers[layer]`).
`useful_rate` is `none` until the first feedback event sets it. -/
structure LayerEntry where
  activations : ℕ
  chars_injected : ℕ
  useful_up : ℕ
  useful_down : ℕ
  useful_rate : Option ℚ
  last_activated_at : Option ℕ
  last_feedback_at : Option ℕ
deriving DecidableEq, Repr

/-- The entry `ensureLayer` creates for an unknown layer name. -/
def freshEntry : LayerEntry :=
  { activations := 0
    chars_injected := 0
    useful_up := 0
    useful_down := 0
    useful_rate := none
    last_activated_at := none
    last_feedback_at := none }

/-- `Number(q.toFixed(2))`: round to 2 decimal places, half up (all
rates lie in `[0,1]`, where `toFixed` rounds half away from zero, which
agrees with half up). -/
def round2 (q : ℚ) : ℚ := ((⌊q * 100 + 1 / 2⌋ : ℤ) : ℚ) / 100

/-- The per-entry body of `recordRoutingFeedback` (meta-routing.js) and
of `applyFeedback` (memory-meta): increment `useful_up` or
`useful_down`, recompute `useful_rate = useful_up / total` rounded to 2
decimals whenever `total > 0`, and stamp `last_feedback_at`. -/
def recordFeedbackEntry (now : ℕ) (entry : LayerEntry) (useful : Bool) : LayerEntry :=
  let entry1 :=
    if useful then { entry with useful_up := entry.useful_up + 1 }
    else { entry with useful_down := entry.useful_down + 1 }
  let total := entry1.useful_up + entry1.useful_down
  let entry2 :=
    if 0 < total then
      { entry1 with useful_rate := some (round2 ((entry1.useful_up : ℚ) / (total : ℚ))) }
    else entry1
  { entry2 with last_feedback_at := some now }

/- ------------------------------------------------------------------
   Token-savings derivation (memory-meta/index.js).
   ------------------------------------------------------------------ -/

/-- The `token_savings` object of `meta.json`.  Every field an absent
JSON key can leave undefined is an `Option`. -/
structure TokenSavings where
  after_routing_avg : Option ℕ
  before_routing_avg : Option ℚ
  saved_last_session : Option ℤ
  saved_total : Option ℤ
  saved_this_week : Option ℤ
  week_start : Option ℕ
deriving DecidableEq, Repr

/-- The `{}` object created by `meta.token_savings || (meta.token_savings = {})`. -/
def emptyTokenSavings : TokenSavings :=
  { after_routing_avg := none
    before_routing_avg := none
    saved_last_session := none
    saved_total := none
    saved_this_week := none
    week_start := none }

/-- The slice of the `meta.json` document used by the routing ledger:
the `routing_stats` aggregate and the `token_savings` object, each
possibly absent. -/
structure MetaState where
  routing_stats : Option RoutingStats
  token_savings : Option TokenSavings
deriving DecidableEq, Repr

/-- `startOfWeek(ts)` from memory-meta: the most recent UTC Monday
00:00 at or before `ts` (milliseconds since the epoch; the epoch day,
1970-01-01, was a Thursday, day number 4). -/
def startOfWeek (ts : ℕ) : ℕ :=
  let day := (ts / 86400000 + 4) % 7
  let diff := (day + 6) % 7
  (ts / 86400000 - diff) * 86400000

/-- `Math.round` on a rational (also for negative arguments, where JS
rounds half toward positive infinity: `Math.round(x) = ⌊x + 1/2⌋`). -/
def jsRound (q : ℚ) : ℤ := ⌊q + 1 / 2⌋

/-- `updateTokenSavings` from memory-meta, with `Date.now()` passed as
`now`: do nothing without `routing_stats`; otherwise ensure the
`token_savings` object exists, mirror `after_routing_avg` into it when
defined, and return early if no finite `before_routing_avg` baseline is
configured.  With a baseline, compute
`saved = max(0, round(before − last_session_chars))`, accumulate
`saved_total`, reset and re-anchor the weekly window once it has fully
elapsed, and accumulate `saved_this_week`. -/
def updateTokenSavings (now : ℕ) (meta : MetaState) : MetaState :=
  match meta.routing_stats with
  | none => meta
  | some stats =>
    let token0 := meta.token_savings.getD emptyTokenSavings
    let token1 :=
      match stats.after_routing_avg with
      | some a => { token0 with after_routing_avg := some a }
      | none => token0
    match token1.before_routing_avg with
    | none => { meta with token_savings := some token1 }
    | some before =>
      let last : ℚ := (stats.last_session_chars : ℚ)
      let saved : ℤ := max 0 (jsRound (before - last))
      let token2 :=
        { token1 with
          saved_last_session := some saved
          saved_total := some (token1.saved_total.getD 0 + saved) }
      let weekStart : ℕ := token2.week_start.getD (startOfWeek now)
      let token3 :=
        if 7 * 86400000 ≤ (now : ℤ) - (weekStart : ℤ) then
          { token2 with week_start := some (startOfWeek now), saved_this_week := some 0 }
        else token2
      let token4 :=
        { token3 with saved_this_week := some (token3.saved_this_week.getD 0 + saved) }
      { meta with token_savings := some token4 }

/- ------------------------------------------------------------------
   Strings: JS helpers shared by the plugins.
   ------------------------------------------------------------------ -/

/-- The whitespace class `\s` of the source regexes and of
`String.prototype.trim`, restricted to the characters that can occur in
this development: space, tab, line feed, carriage return, vertical tab,
form feed and no-break space (the remaining exotic Unicode space code
points are elided). -/
def isJsSpace (c : Char) : Bool :=
  c = ' ' || c = '\t' || c = '\n' || c = '\r' || c = '\x0b' || c = '\x0c' || c = '\u00A0'

/-- `String.prototype.trim` on a character list: strip leading and
trailing whitespace. -/
def jsTrim (cs : List Char) : List Char :=
  ((cs.dropWhile isJsSpace).reverse.dropWhile isJsSpace).reverse

/-- `text.toLowerCase()` (the prompts and patterns here are ASCII, so
per-character lowering agrees with the JS string method). -/
def jsToLower (s : String) : String := String.mk (s.toList.map Char.toLower)

/-- `pat.test(hay)` for a regex that is an alternation of literals:
substring containment. -/
def containsSub (hay pat : String) : Bool := decide (pat.toList <:+: hay.toList)

/-- `truncate(text, maxChars)` as defined in the goal, timeline,
entity, episodic/procedural and tool-skill plugins: return short text
unchanged, else the first `maxChars` characters trimmed (both ends, as
`String.prototype.trim` does) followed by the three-character `"..."`. -/
def truncate (text : String) (maxChars : ℕ) : String :=
  if text = "" then ""
  else if text.length ≤ maxChars then text
  else String.mk (jsTrim (text.toList.take maxChars)) ++ "..."

/-- `truncate(text, maxChars)` as defined in the rerank plugin: same
shape, but the appended suffix is the single character `"…"` (U+2026). -/
def truncateRerank (text : String) (maxChars : ℕ) : String :=
  if text = "" then ""
  else if text.length ≤ maxChars then text
  else String.mk (jsTrim (text.toList.take maxChars)) ++ "…"

/- ------------------------------------------------------------------
   RecallGate: the before_agent_start guards of the goal and the
   episodic/procedural plugins.
   ------------------------------------------------------------------ -/

/-- `shouldRecallGoals(prompt)` from the goal plugin: the regex
`/goal|objetivo|meta|intent|plan|task|prioridad|priority/` tested
against the lowercased prompt — substring containment of any
alternative. -/
def shouldRecallGoals (prompt : String) : Bool :=
  let p := jsToLower prompt
  [("goal" : String), "objetivo", "meta", "intent", "plan", "task", "prioridad",
    "priority"].any (fun k => containsSub p k)

/-- The `hace \d+` alternative of the episodic recall regex: the
literal `"hace "` followed immediately by an ASCII digit, anywhere in
the text. -/
def hasHaceNumber (cs : List Char) : Bool :=
  cs.tails.any (fun t =>
    decide (("hace ".toList) <+: t) && ((t.drop 5).headD ' ').isDigit)

/-- `shouldRecallEpisodic(prompt)` from the episodic/procedural plugin:
its recall regex, an alternation of literal phrases plus `hace \d+`,
tested against the lowercased prompt. -/
def shouldRecallEpisodic (prompt : String) : Bool :=
  let p := jsToLower prompt
  ([("que paso" : String), "que ha pasado", "que ocurrió", "que ocurrio", "cuando",
    "ayer", "hace un", "hace una", "hace poco", "la otra vez", "ultima vez",
    "última vez", "reciente", "recent", "recently", "semana pasada", "mes pasado",
    "la vez pasada", "last week", "yesterday", "previous", "previously", "earlier",
    "the other day", "historial", "historia", "registro", "log", "evento",
    "timeline"].any (fun k => containsSub p k))
    || hasHaceNumber p.toList

/-- `shouldRecallProcedural(prompt)` from the episodic/procedural
plugin: the procedural recall regex (all alternatives literal). -/
def shouldRecallProcedural (prompt : String) : Bool :=
  let p := jsToLower prompt
  [("como" : String), "cómo", "how", "procedimiento", "pasos", "paso a paso",
    "instrucciones", "guia", "guía", "tutorial", "checklist", "check list",
    "comandos", "comando", "runbook", "playbook", "workflow", "orquest", "arregl",
    "resolv", "fix", "solved", "solucion", "solución", "diagnostic", "diagnostico",
    "diagnóstico", "setup", "instal", "configur", "verificar", "verificacion",
    "verificación"].any (fun k => containsSub p k)

/-- The gate prefix of the goal plugin's `before_agent_start` handler:
`if (!event?.prompt || event.prompt.length < 3) return;` followed by
`if (!cfg.alwaysRecall && !shouldRecallGoals(event.prompt)) return;`.
Returns whether the handler proceeds to the embedding call.  `none`
models a missing `event.prompt`; the empty string is falsy in JS. -/
def goalGatePasses (alwaysRecall : Bool) (prompt : Option String) : Bool :=
  match prompt with
  | none => false
  | some p =>
    if p = "" || p.length < 3 then false
    else if !alwaysRecall && !shouldRecallGoals p then false
    else true

/-- The gate prefix of the episodic/procedural plugin's
`before_agent_start` handler (lines 545–551): reject prompts shorter
than 5 characters, then compute `episodicAllowed`/`proceduralAllowed`
from the per-sublayer `enabled`/`alwaysRecall` flags and keyword
matches, and return whether either sublayer's recall runs. -/
def epiprocGatePasses (epiEnabled epiAlways procEnabled procAlways : Bool)
    (prompt : Option String) : Bool :=
  match prompt with
  | none => false
  | some p =>
    if p = "" || p.length < 5 then false
    else
      let episodicAllowed := epiEnabled && (epiAlways || shouldRecallEpisodic p)
      let proceduralAllowed := procEnabled && (procAlways || shouldRecallProcedural p)
      episodicAllowed || proceduralAllowed

/- ------------------------------------------------------------------
   Redaction: `redactSensitive` and its five masking regexes.
   ------------------------------------------------------------------ -/

/-- Case-insensitive literal match: consume the pattern (given in
lowercase) from the front of the input, returning the rest. -/
def matchCI : List Char → List Char → Option (List Char)
  | [], cs => some cs
  | _ :: _, [] => none
  | k :: ks, c :: cs => if c.toLower = k then matchCI ks cs else none

/-- `\s*` — drop leading whitespace. -/
def skipWs (cs : List Char) : List Char := cs.dropWhile isJsSpace

/-- `\s*[:=]\s*\S+` — the common tail of the `api_key`/`token`/
`authorization` masking regexes: optional whitespace, a colon or an
equals sign, optional whitespace, then a maximal nonempty run of
non-whitespace characters.  Returns the input remaining after the
match. -/
def matchKeyTail (cs : List Char) : Option (List Char) :=
  match skipWs cs with
  | [] => none
  | c :: cs2 =>
    if c = ':' || c = '=' then
      match skipWs cs2 with
      | [] => none
      | d :: cs4 =>
        if isJsSpace d then none
        else some (cs4.dropWhile (fun x => !isJsSpace x))
    else none

/-- `/sk-[A-Za-z0-9]{20,}/` (case-sensitive) anchored at the current
position: `sk-` followed by at least 20 alphanumeric characters
(maximal run). -/
def matchSkAt : List Char → Option (List Char)
  | c1 :: c2 :: c3 :: rest =>
    if c1 = 's' && c2 = 'k' && c3 = '-' then
      let run := rest.takeWhile Char.isAlphanum
      if 20 ≤ run.length then some (rest.drop run.length) else none
    else none
  | _ => none

/-- `/api[_-]?key\s*[:=]\s*\S+/i` anchored at the current position:
`api`, an optional `_` or `-` separator (with backtracking when `key`
does not follow the separator), `key`, then the key tail. -/
def matchApiKeyAt (cs : List Char) : Option (List Char) :=
  (matchCI ("api".toList) cs).bind (fun cs1 =>
    let afterKey :=
      match cs1 with
      | c :: cs2 =>
        if c = '_' || c = '-' then
          match matchCI ("key".toList) cs2 with
          | some r => some r
          | none => matchCI ("key".toList) cs1
        else matchCI ("key".toList) cs1
      | [] => none
    afterKey.bind matchKeyTail)

/-- `/token\s*[:=]\s*\S+/i` anchored at the current position. -/
def matchTokenAt (cs : List Char) : Option (List Char) :=
  (matchCI ("token".toList) cs).bind matchKeyTail

/-- `/bearer\s+\S+/i` anchored at the current position: `bearer`, at
least one whitespace character, then a maximal nonempty run of
non-whitespace characters. -/
def matchBearerAt (cs : List Char) : Option (List Char) :=
  (matchCI ("bearer".toList) cs).bind (fun cs1 =>
    match cs1 with
    | c :: cs2 =>
      if isJsSpace c then
        match skipWs cs2 with
        | [] => none
        | d :: cs4 =>
          if isJsSpace d then none
          else some (cs4.dropWhile (fun x => !isJsSpace x))
      else none
    | [] => none)

/-- `/authorization\s*[:=]\s*\S+/i` anchored at the current position. -/
def matchAuthAt (cs : List Char) : Option (List Char) :=
  (matchCI ("authorization".toList) cs).bind matchKeyTail

/-- `out.replace(pattern, repl)` with the `g` flag, for an anchored
matcher `m` that always consumes at least one character: scan left to
right, replacing each leftmost match and continuing after it (the
replacement text is not rescanned).  The fuel argument (initially the
input length, an upper bound on the remaining input) makes the
recursion structural. -/
def replaceAllGo (m : List Char → Option (List Char)) (repl : List Char) :
    ℕ → List Char → List Char
  | 0, cs => cs
  | Nat.succ _, [] => []
  | Nat.succ fuel, c :: cs =>
    match m (c :: cs) with
    | some rest => repl ++ replaceAllGo m repl fuel rest
    | none => c :: replaceAllGo m repl fuel cs

/-- `out.replace(pattern, repl)` with the `g` flag. -/
def replaceAll (m : List Char → Option (List Char)) (repl : List Char)
    (cs : List Char) : List Char :=
  replaceAllGo m repl cs.length cs

/-- The body of `redactSensitive`: the five masking patterns applied in
order, each as a global replace with the literal `"[redacted]"`. -/
def redactSensitiveL (cs : List Char) : List Char :=
  let repl := "[redacted]".toList
  let s1 := replaceAll matchSkAt repl cs
  let s2 := replaceAll matchApiKeyAt repl s1
  let s3 := replaceAll matchTokenAt repl s2
  let s4 := replaceAll matchBearerAt repl s3
  replaceAll matchAuthAt repl s4

/-- `redactSensitive(text, enabled)` as defined identically in the
goal, entity, episodic/procedural, tool-skill and blackboard plugins:
return the text unchanged when redaction is disabled or the text is
empty, else apply the five masking patterns in order. -/
def redactSensitive (text : String) (enabled : Bool) : String :=
  if !enabled || text = "" then text
  else String.mk (redactSensitiveL text.toList)

/- ------------------------------------------------------------------
   DecayRanker: `computeDecayScore` (identical in the goal, timeline
   and episodic/procedural plugins up to the name of the timestamp
   field).
   ------------------------------------------------------------------ -/

open Classical in
/-- `computeDecayScore(score, updatedAt, halfLifeDays)` with
`Date.now()` passed explicitly as `now`:
`ageMs = max(0, now - (updatedAt || now))` (a falsy timestamp — `0`,
`null`, `undefined` — reads as `now`, modelled by the zero test),
`halfLifeMs = halfLifeDays · 86 400 000`, guard `halfLifeMs ≤ 0` by
returning the score unchanged, else multiply by
`Math.exp(-ageMs / halfLifeMs)`. -/
noncomputable def computeDecayScore (now score updatedAt halfLifeDays : ℝ) : ℝ :=
  let ageMs := max 0 (now - (if updatedAt = 0 then now else updatedAt))
  let halfLifeMs := halfLifeDays * (24 * 60 * 60 * 1000)
  if halfLifeMs ≤ 0 then score
  else score * Real.exp (-(ageMs / halfLifeMs))

open Classical in
/-- The age computed by `computeDecayScore`, named for use in the
statements: `max(0, now - (updatedAt || now))`. -/
noncomputable def decayAgeMs (now updatedAt : ℝ) : ℝ :=
  max 0 (now - (if updatedAt = 0 then now else updatedAt))

/- ------------------------------------------------------------------
   Capture error flow (claim C1): the agent_end handlers' treatment of
   external-call failures.  The extraction and summary building are
   synchronous computation; the external calls (embed + store) are
   passed in as a fallible function applied to each captured summary.
   ------------------------------------------------------------------ -/

/-- The per-goal capture loop of the goal plugin's `agent_end` handler
(lines 424–443): every `await embeddings.embed(summary)` /
`table.store(…)` pair sits inside `try { … } catch (err) { logger.warn }`,
so the loop always returns normally; the returned list is the warning
log lines produced for failed summaries. -/
def goalCaptureLoop (embedStore : String → Except String Unit) :
    List String → List String
  | [] => []
  | summary :: rest =>
    match embedStore summary with
    | Except.ok _ => goalCaptureLoop embedStore rest
    | Except.error e =>
      ("memory-goal: capture failed: " ++ e) :: goalCaptureLoop embedStore rest

/-- The per-entity capture loop of the entity plugin's `agent_end`
handler (lines 426–459): `await embeddings.embed(summary)` and
`await table.store(…)` are NOT wrapped in any `try`/`catch`, so the
first failure aborts the handler with the error. -/
def entityCaptureLoop (embedStore : String → Except String Unit) :
    List String → Except String Unit
  | [] => Except.ok ()
  | summary :: rest => do
    _ ← embedStore summary
    entityCaptureLoop embedStore rest

/- ------------------------------------------------------------------
   Timeline capture (claim C2): `extractEvents` and the stored summary,
   which is never passed through `redactSensitive`.
   ------------------------------------------------------------------ -/

/-- Split on `/\r?\n/`: break at every line feed, removing a carriage
return immediately before it. -/
def splitLinesL : List Char → List (List Char)
  | [] => [[]]
  | '\r' :: '\n' :: cs => [] :: splitLinesL cs
  | '\n' :: cs => [] :: splitLinesL cs
  | c :: cs =>
    match splitLinesL cs with
    | line :: more => (c :: line) :: more
    | [] => [[c]]

/-- The tag alternation of the timeline plugin's event-prefix regex
`/^\s*(event|evento|timeline|time|fecha|when|incident|incidente|deploy|release)\s*[:\-]\s*(.+)$/i`. -/
def timelineTags : List String :=
  [("evento" : String), "event", "timeline", "time", "fecha", "when", "incidente",
    "incident", "deploy", "release"]

/-- Match one (already trimmed) line against the timeline event-prefix
regex and return the trimmed capture group — the event text after the
`:` or `-` separator.  Longer tags are tried before their prefixes,
which reproduces the regex alternation's backtracking. -/
def parseEventLine (line : List Char) : Option (List Char) :=
  timelineTags.findSome? (fun tag =>
    (matchCI (tag.toList) line).bind (fun r1 =>
      match skipWs r1 with
      | c :: r3 =>
        if c = ':' || c = '-' then
          let r4 := skipWs r3
          if r4.isEmpty then none else some (jsTrim r4)
        else none
      | [] => none))

/-- `extractEvents(text)` from the timeline plugin: split into lines,
trim each, keep the capture of every line matching the event-prefix
regex (blank and unmatched lines yield nothing). -/
def extractEvents (text : String) : List String :=
  (splitLinesL text.toList).filterMap (fun raw =>
    let line := jsTrim raw
    if line.isEmpty then none
    else (parseEventLine line).map String.mk)

/-- The summary the timeline plugin's `agent_end` handler embeds and
stores for an extracted event (line 305):
`truncate(\`Event: ${evt}\nOccurred: …\nRecorded: …\`, cfg.maxChars)` —
with no `redactSensitive` call anywhere in the timeline plugin. -/
def timelineCaptureSummary (evt occurredIso recordedIso : String) (maxChars : ℕ) : String :=
  truncate ("Event: " ++ evt ++ "\nOccurred: " ++ occurredIso ++ "\nRecorded: " ++ recordedIso)
    maxChars

/-- The summary the goal plugin's `agent_end` handler embeds and stores
for a captured goal (lines 416–422): the formatted goal block truncated
to `cfg.maxChars` and then passed through `redactSensitive` with the
layer's redaction toggle. -/
def goalCaptureSummary (goal status priority owner details : String) (maxChars : ℕ)
    (redactionEnabled : Bool) : String :=
  redactSensitive
    (truncate
      ("Goal: " ++ goal ++ "\nStatus: " ++ status ++ "\nPriority: " ++ priority ++
        "\nOwner: " ++ owner ++ "\nDetails: " ++ details)
      maxChars)
    redactionEnabled

/- ==================================================================
   Lemmas.
   ================================================================== -/

/-- The count-limited spec walk is the `take` of the unbounded walk. -/
theorem selectClusterSpecWalk_eq_take (ms mg : ℚ) :
    ∀ (l : List ScoredDoc) (prev : Option ℚ) (c : ℕ),
      selectClusterSpecWalk ms mg prev c l = (walkNoCount ms mg prev l).take c := by
  intro l
  induction l with
  | nil =>
    intro prev c
    cases prev <;> cases c <;> simp [selectClusterSpecWalk, walkNoCount]
  | cons i rest ih =>
    intro prev c
    cases c with
    | zero => cases prev <;> simp [selectClusterSpecWalk]
    | succ c =>
      cases prev with
      | none =>
        by_cases h : i.score < ms
        · simp [selectClusterSpecWalk, walkNoCount, h, ih]
        · simp [selectClusterSpecWalk, walkNoCount, h, ih]
      | some p =>
        by_cases h : i.score < ms
        · simp [selectClusterSpecWalk, walkNoCount, h, ih]
        · by_cases hg : p - i.score ≤ mg
          · simp [selectClusterSpecWalk, walkNoCount, h, hg, ih]
          · simp [selectClusterSpecWalk, walkNoCount, h, hg]

/-- Once an item has been selected, the source loop never returns the
empty list. -/
theorem selectLoop_ne_nil (cfg : RerankCfg) :
    ∀ (l acc : List ScoredDoc), acc ≠ [] → selectLoop cfg acc l ≠ [] := by
  intro l
  induction l with
  | nil =>
    intro acc hacc
    simpa [selectLoop] using hacc
  | cons i rest ih =>
    intro acc hacc
    match acc, hacc with
    | a :: as, _ =>
      by_cases h : i.score < cfg.minScore
      · simpa [selectLoop, h] using ih (a :: as) (by simp)
      · by_cases hg : a.score - i.score ≤ cfg.minGap
        · by_cases hlen : cfg.maxDocuments ≤ as.length + 1 + 1
          · simp [selectLoop, h, hg, hlen]
          · simpa [selectLoop, h, hg, hlen] using ih (i :: a :: as) (by simp)
        · simp [selectLoop, h, hg]

/-- Up to the final `slice(0, maxDocuments)`, the source loop computes
the unbounded gap walk appended to the already-selected items. -/
theorem selectLoop_take (cfg : RerankCfg) :
    ∀ (l acc : List ScoredDoc),
      (selectLoop cfg acc l).take cfg.maxDocuments
        = ((acc.reverse ++
            walkNoCount cfg.minScore cfg.minGap (accPrevScore acc) l).take
            cfg.maxDocuments) := by
  intro l
  induction l with
  | nil =>
    intro acc
    simp [selectLoop, walkNoCount]
  | cons i rest ih =>
    intro acc
    by_cases h : i.score < cfg.minScore
    · match acc with
      | [] => simpa [selectLoop, walkNoCount, accPrevScore, h] using ih []
      | a :: as => simpa [selectLoop, walkNoCount, accPrevScore, h] using ih (a :: as)
    · match acc with
      | [] =>
        have := ih [i]
        simp [selectLoop, walkNoCount, accPrevScore, h] at this ⊢
        exact this
      | a :: as =>
        by_cases hg : a.score - i.score ≤ cfg.minGap
        · by_cases hlen : cfg.maxDocuments ≤ as.length + 1 + 1
          · have hlen2 : cfg.maxDocuments ≤ ((a :: as).reverse ++ [i]).length := by
              simpa using hlen
            calc (selectLoop cfg (a :: as) (i :: rest)).take cfg.maxDocuments
                = ((i :: a :: as).reverse).take cfg.maxDocuments := by
                  simp [selectLoop, h, hg, hlen]
              _ = (((a :: as).reverse ++ [i]).take cfg.maxDocuments) := by
                  simp
              _ = ((((a :: as).reverse ++ [i]) ++
                    walkNoCount cfg.minScore cfg.minGap (some i.score) rest).take
                    cfg.maxDocuments) := by
                  rw [List.take_append_of_le_length hlen2]
              _ = (((a :: as).reverse ++
                    walkNoCount cfg.minScore cfg.minGap (accPrevScore (a :: as))
                      (i :: rest)).take cfg.maxDocuments) := by
                  simp [walkNoCount, accPrevScore, h, hg]
          · have := ih (i :: a :: as)
            simp [selectLoop, walkNoCount, accPrevScore, h, hg, hlen] at this ⊢
            simpa [List.append_assoc] using this
        · simp [selectLoop, walkNoCount, accPrevScore, h, hg]

/-- The unbounded walk selects nothing exactly when every item is below
the floor. -/
theorem walkNoCount_eq_nil_iff (ms mg : ℚ) :
    ∀ l : List ScoredDoc, walkNoCount ms mg none l = [] ↔ ∀ d ∈ l, d.score < ms := by
  intro l
  induction l with
  | nil => simp [walkNoCount]
  | cons i rest ih =>
    by_cases h : i.score < ms
    · simpa [walkNoCount, h] using ih
    · simp [walkNoCount, h]

/-- The source loop selects nothing exactly when every item is below
the floor. -/
theorem selectLoop_eq_nil_iff (cfg : RerankCfg) :
    ∀ l : List ScoredDoc,
      selectLoop cfg [] l = [] ↔ ∀ d ∈ l, d.score < cfg.minScore := by
  intro l
  induction l with
  | nil => simp [selectLoop]
  | cons i rest ih =>
    by_cases h : i.score < cfg.minScore
    · simpa [selectLoop, h] using ih
    · simp [selectLoop, h]
      exact fun hnil => absurd hnil (selectLoop_ne_nil cfg rest [i] (by simp))

/- ==================================================================
   Claim C3 — the cluster selector.
   ================================================================== -/

/-- C3: `selectTopCluster`, applied to a descending-sorted list,
implements exactly the spec's walk (skip items below `minScore` without
stopping, accept after the first qualifying item only while the drop
from the previous selected item is ≤ `maxGap`, stop at the first gap
break or once `maxCount` is reached — stated as extensional equality
with the spec-modelled `selectClusterSpec`); it never returns more than
`maxCount` items; when no item meets `minScore` it returns exactly the
first `maxCount` input items unmodified in order; and on scores
`[0.9, 0.85, 0.6, 0.3]` with `{minScore: 0.4, maxGap: 0.08, maxCount: 3}`
it selects the items scored `[0.9, 0.85]`. -/
theorem claim_C3_selectTopCluster :
    (∀ (sorted : List ScoredDoc) (cfg : RerankCfg),
        selectTopCluster sorted cfg = selectClusterSpec sorted cfg) ∧
    (∀ (sorted : List ScoredDoc) (cfg : RerankCfg),
        (selectTopCluster sorted cfg).length ≤ cfg.maxDocuments) ∧
    (∀ (sorted : List ScoredDoc) (cfg : RerankCfg),
        (∀ d ∈ sorted, d.score < cfg.minScore) →
        selectTopCluster sorted cfg = sorted.take cfg.maxDocuments) ∧
    selectTopCluster
        [⟨0, 9/10⟩, ⟨1, 17/20⟩, ⟨2, 3/5⟩, ⟨3, 3/10⟩]
        ⟨2/5, 2/25, 3⟩
      = [⟨0, 9/10⟩, ⟨1, 17/20⟩] := by
  refine ⟨?_, ?_, ?_, by norm_num [selectTopCluster, selectLoop]⟩
  · intro sorted cfg
    have hspec :=
      selectClusterSpecWalk_eq_take cfg.minScore cfg.minGap sorted none cfg.maxDocuments
    by_cases hS : selectLoop cfg [] sorted = []
    · have hall : ∀ d ∈ sorted, d.score < cfg.minScore :=
        (selectLoop_eq_nil_iff cfg sorted).1 hS
      have hW : walkNoCount cfg.minScore cfg.minGap none sorted = [] :=
        (walkNoCount_eq_nil_iff _ _ sorted).2 hall
      simp [selectTopCluster, selectClusterSpec, hS, hspec, hW]
    · have htake := selectLoop_take cfg sorted []
      simp only [accPrevScore, List.reverse_nil, List.nil_append] at htake
      by_cases hM : cfg.maxDocuments = 0
      · simp [selectTopCluster, selectClusterSpec, hS, hM,
          selectClusterSpecWalk_eq_take cfg.minScore cfg.minGap sorted none 0]
      · have hWne : walkNoCount cfg.minScore cfg.minGap none sorted ≠ [] := by
          intro hW
          exact hS ((selectLoop_eq_nil_iff cfg sorted).2
            ((walkNoCount_eq_nil_iff _ _ sorted).1 hW))
        have hselne :
            (walkNoCount cfg.minScore cfg.minGap none sorted).take cfg.maxDocuments ≠ [] := by
          rw [Ne, List.take_eq_nil_iff]
          push_neg
          exact ⟨hM, hWne⟩
        simp [selectTopCluster, selectClusterSpec, hS, hspec, hselne, List.isEmpty_iff, htake]
  · intro sorted cfg
    by_cases hS : (selectLoop cfg [] sorted).length = 0
    · simp [selectTopCluster, hS, List.length_take_le]
    · simp [selectTopCluster, hS, List.length_take_le]
  · intro sorted cfg hall
    have hS : selectLoop cfg [] sorted = [] := (selectLoop_eq_nil_iff cfg sorted).2 hall
    simp [selectTopCluster, hS]

/-- C3 witness: the third conjunct applied at a concrete input every
item of which is below the floor. -/
theorem claim_C3_selectTopCluster_witness :
    selectTopCluster [⟨0, 0⟩, ⟨1, 1⟩] ⟨2, 1, 5⟩ = List.take 5 [⟨0, 0⟩, ⟨1, 1⟩] :=
  claim_C3_selectTopCluster.2.2.1 [⟨0, 0⟩, ⟨1, 1⟩] ⟨2, 1, 5⟩ (by decide)

/- ==================================================================
   Claim C5 — double session finalization.
   ================================================================== -/

/-- C5 counterexample: from a ledger with 2 finalized sessions, 1000
total chars and a 500-char current session, a first finalization gives
3 sessions; a second immediate finalization moves the sessions count to
4 — the lifetime totals are NOT all left unchanged by the second run,
contrary to the claim. -/
theorem claim_C5_counterexample :
    (finalizeRoutingSession
        (finalizeRoutingSession ⟨2, 1000, 0, none, 0, 0, 500, 1⟩)).sessions
      ≠ (finalizeRoutingSession (⟨2, 1000, 0, none, 0, 0, 500, 1⟩ :
          RoutingStats)).sessions := by
  decide

/-- C5 amended: running `finalizeRoutingSession` twice in a row without
an intervening activation leaves `total_session_chars` and
`total_session_activations` unchanged the second time (the zeroed
current-session counters fold in nothing), but it still increments the
`sessions` count by one and recomputes the all-time average over the
larger session count; the second run is therefore not a no-op on the
session count or the derived average. -/
theorem claim_C5_finalize_second_run (st : RoutingStats) :
    (finalizeRoutingSession (finalizeRoutingSession st)).total_session_chars
        = (finalizeRoutingSession st).total_session_chars ∧
    (finalizeRoutingSession (finalizeRoutingSession st)).total_session_activations
        = (finalizeRoutingSession st).total_session_activations ∧
    (finalizeRoutingSession (finalizeRoutingSession st)).sessions
        = (finalizeRoutingSession st).sessions + 1 ∧
    (finalizeRoutingSession (finalizeRoutingSession st)).after_routing_avg
        = some (jsRoundDiv (finalizeRoutingSession st).total_session_chars
            ((finalizeRoutingSession st).sessions + 1)) ∧
    (finalizeRoutingSession (finalizeRoutingSession st)).last_session_chars = 0 ∧
    (finalizeRoutingSession (finalizeRoutingSession st)).current_session_chars = 0 := by
  simp [finalizeRoutingSession]

/- ==================================================================
   Claim C6 — feedback is commutative in aggregate.
   ================================================================== -/

/-- One feedback event adds one to `useful_up` exactly on "useful". -/
theorem recordFeedbackEntry_useful_up (now : ℕ) (e : LayerEntry) (b : Bool) :
    (recordFeedbackEntry now e b).useful_up = e.useful_up + (if b then 1 else 0) := by
  cases b
  · have h : 0 < e.useful_up + (e.useful_down + 1) := by omega
    simp [recordFeedbackEntry, h]
  · have h : 0 < e.useful_up + 1 + e.useful_down := by omega
    simp [recordFeedbackEntry, h]

/-- One feedback event adds one to `useful_down` exactly on "not useful". -/
theorem recordFeedbackEntry_useful_down (now : ℕ) (e : LayerEntry) (b : Bool) :
    (recordFeedbackEntry now e b).useful_down = e.useful_down + (if b then 0 else 1) := by
  cases b
  · have h : 0 < e.useful_up + (e.useful_down + 1) := by omega
    simp [recordFeedbackEntry, h]
  · have h : 0 < e.useful_up + 1 + e.useful_down := by omega
    simp [recordFeedbackEntry, h]

/-- After any feedback event the rate equals the rounded quotient of
the updated counters (the `total > 0` guard always fires, since one
counter was just incremented). -/
theorem recordFeedbackEntry_useful_rate (now : ℕ) (e : LayerEntry) (b : Bool) :
    (recordFeedbackEntry now e b).useful_rate
      = some (round2 (((recordFeedbackEntry now e b).useful_up : ℚ) /
          (((recordFeedbackEntry now e b).useful_up +
            (recordFeedbackEntry now e b).useful_down : ℕ) : ℚ))) := by
  cases b
  · have h : 0 < e.useful_up + (e.useful_down + 1) := by omega
    simp [recordFeedbackEntry, h]
  · have h : 0 < e.useful_up + 1 + e.useful_down := by omega
    simp [recordFeedbackEntry, h]

/-- Folding feedback events accumulates `useful_up` by the number of
"useful" events, from any starting entry. -/
theorem foldl_feedback_useful_up (now : ℕ) :
    ∀ (evs : List Bool) (e : LayerEntry),
      (evs.foldl (recordFeedbackEntry now) e).useful_up
        = e.useful_up + evs.count true := by
  intro evs
  induction evs with
  | nil => intro e; simp
  | cons b t ih =>
    intro e
    simp only [List.foldl_cons, ih, recordFeedbackEntry_useful_up, List.count_cons]
    cases b <;> simp <;> omega

/-- Folding feedback events accumulates `useful_down` by the number of
"not useful" events, from any starting entry. -/
theorem foldl_feedback_useful_down (now : ℕ) :
    ∀ (evs : List Bool) (e : LayerEntry),
      (evs.foldl (recordFeedbackEntry now) e).useful_down
        = e.useful_down + evs.count false := by
  intro evs
  induction evs with
  | nil => intro e; simp
  | cons b t ih =>
    intro e
    simp only [List.foldl_cons, ih, recordFeedbackEntry_useful_down, List.count_cons]
    cases b <;> simp <;> omega

/-- After at least one feedback event, the rate is the rounded quotient
of the final counters. -/
theorem foldl_feedback_useful_rate (now : ℕ) :
    ∀ (evs : List Bool) (e : LayerEntry), evs ≠ [] →
      (evs.foldl (recordFeedbackEntry now) e).useful_rate
        = some (round2 (((evs.foldl (recordFeedbackEntry now) e).useful_up : ℚ) /
            (((evs.foldl (recordFeedbackEntry now) e).useful_up +
              (evs.foldl (recordFeedbackEntry now) e).useful_down : ℕ) : ℚ))) := by
  intro evs
  induction evs with
  | nil => intro e h; exact absurd rfl h
  | cons b t ih =>
    intro e _
    cases t with
    | nil => simpa using recordFeedbackEntry_useful_rate now e b
    | cons b2 t2 =>
      simpa using ih (recordFeedbackEntry now e b) (by simp)

/-- `count true + count false = length` for a list of booleans. -/
theorem count_true_add_count_false (evs : List Bool) :
    evs.count true + evs.count false = evs.length := by
  induction evs with
  | nil => simp
  | cons b t ih => cases b <;> simp [List.count_cons] <;> omega

/-- C6: feedback recording is commutative in aggregate — for every
interleaving `evs` of N "useful" and M "not useful" events applied to a
fresh entry, the result has `useful_up = N` (the number of `true`
events), `useful_down = M`, and, once at least one event exists,
`useful_rate = N/(N+M)` rounded to 2 decimals; a fresh entry has no
`useful_rate`.  Order independence is immediate: the result depends on
`evs` only through its counts. -/
theorem claim_C6_recordFeedback :
    freshEntry.useful_rate = none ∧
    (∀ (now : ℕ) (evs : List Bool),
      (evs.foldl (recordFeedbackEntry now) freshEntry).useful_up = evs.count true ∧
      (evs.foldl (recordFeedbackEntry now) freshEntry).useful_down = evs.count false ∧
      (evs ≠ [] →
        (evs.foldl (recordFeedbackEntry now) freshEntry).useful_rate
          = some (round2 ((evs.count true : ℚ) / (evs.length : ℚ))))) := by
  refine ⟨rfl, ?_⟩
  intro now evs
  have hup := foldl_feedback_useful_up now evs freshEntry
  have hdown := foldl_feedback_useful_down now evs freshEntry
  have hup2 : (evs.foldl (recordFeedbackEntry now) freshEntry).useful_up
      = evs.count true := by simpa [freshEntry] using hup
  have hdown2 : (evs.foldl (recordFeedbackEntry now) freshEntry).useful_down
      = evs.count false := by simpa [freshEntry] using hdown
  refine ⟨hup2, hdown2, ?_⟩
  intro hne
  have hrate := foldl_feedback_useful_rate now evs freshEntry hne
  rw [hrate, hup2, hdown2, count_true_add_count_false]

/-- C6 witness: two "useful" and one "not useful" events in a concrete
interleaving yield a rate of `round2 (2/3)`. -/
theorem claim_C6_recordFeedback_witness :
    (([true, false, true]).foldl (recordFeedbackEntry 5) freshEntry).useful_rate
      = some (round2 ((List.count true [true, false, true] : ℚ) /
          ((List.length [true, false, true] : ℕ) : ℚ))) :=
  (claim_C6_recordFeedback.2 5 [true, false, true]).2.2 (by decide)

/- ==================================================================
   Claim C7 — token savings without a configured baseline.
   ================================================================== -/

/-- C7 counterexample: with `routing_stats` present (carrying
`after_routing_avg = 500`) and no `token_savings` object at all — so no
baseline is configured — `updateTokenSavings` does NOT leave the
token-savings state unchanged: it creates the object and copies
`after_routing_avg` into it. -/
theorem claim_C7_counterexample :
    updateTokenSavings 0 ⟨some ⟨1, 500, 1, some 500, 500, 1, 0, 0⟩, none⟩
      ≠ ⟨some ⟨1, 500, 1, some 500, 500, 1, 0, 0⟩, none⟩ := by
  decide

/-- C7 amended: when no `before_routing_avg` baseline is configured,
`updateTokenSavings` raises no error and computes no savings — it
leaves `routing_stats` untouched, and the savings fields
(`saved_last_session`, `saved_total`, `saved_this_week`, `week_start`)
and the baseline itself keep their previous values — but it is not a
complete no-op on the token-savings state: whenever `routing_stats`
exists it materializes the `token_savings` object and mirrors
`after_routing_avg` into it (without `routing_stats` it returns the
state unchanged). -/
theorem claim_C7_updateTokenSavings_amended (now : ℕ) (meta : MetaState)
    (hb : (meta.token_savings.getD emptyTokenSavings).before_routing_avg = none) :
    (updateTokenSavings now meta).routing_stats = meta.routing_stats ∧
    (meta.routing_stats = none → updateTokenSavings now meta = meta) ∧
    ((updateTokenSavings now meta).token_savings.getD emptyTokenSavings).saved_last_session
      = (meta.token_savings.getD emptyTokenSavings).saved_last_session ∧
    ((updateTokenSavings now meta).token_savings.getD emptyTokenSavings).saved_total
      = (meta.token_savings.getD emptyTokenSavings).saved_total ∧
    ((updateTokenSavings now meta).token_savings.getD emptyTokenSavings).saved_this_week
      = (meta.token_savings.getD emptyTokenSavings).saved_this_week ∧
    ((updateTokenSavings now meta).token_savings.getD emptyTokenSavings).week_start
      = (meta.token_savings.getD emptyTokenSavings).week_start ∧
    ((updateTokenSavings now meta).token_savings.getD emptyTokenSavings).before_routing_avg
      = none ∧
    (∀ stats : RoutingStats, meta.routing_stats = some stats →
      (updateTokenSavings now meta).token_savings ≠ none ∧
      ((updateTokenSavings now meta).token_savings.getD emptyTokenSavings).after_routing_avg
        = (match stats.after_routing_avg with
            | some a => some a
            | none => (meta.token_savings.getD emptyTokenSavings).after_routing_avg)) := by
  cases hrs : meta.routing_stats with
  | none => simp [updateTokenSavings, hrs, hb]
  | some stats =>
    cases hafter : stats.after_routing_avg with
    | none => simp [updateTokenSavings, hrs, hafter, hb]
    | some a => simp [updateTokenSavings, hrs, hafter, hb]

/-- C7 witness: the amended theorem applied to the counterexample
state. -/
theorem claim_C7_updateTokenSavings_witness :
    (updateTokenSavings 0 ⟨some ⟨1, 500, 1, some 500, 500, 1, 0, 0⟩, none⟩).routing_stats
      = (⟨some ⟨1, 500, 1, some 500, 500, 1, 0, 0⟩, none⟩ : MetaState).routing_stats :=
  (claim_C7_updateTokenSavings_amended 0
    ⟨some ⟨1, 500, 1, some 500, 500, 1, 0, 0⟩, none⟩ (by decide)).1

/- ==================================================================
   Claim C4 — the decay formula.
   ================================================================== -/

/-- C4: for positive `halfLifeDays` the decay-adjusted score equals
`rawScore · exp(-ageMs / halfLifeMs)` with `ageMs = max(0, now − ts)`;
for `rawScore ∈ (0,1]` it never exceeds `rawScore`, with equality
exactly at age 0; and for `halfLifeDays ≤ 0` the score is returned
unchanged by the explicit guard (no division blow-up). -/
theorem claim_C4_computeDecayScore (now score updatedAt halfLifeDays : ℝ) :
    (0 < halfLifeDays →
      computeDecayScore now score updatedAt halfLifeDays
        = score * Real.exp (-(decayAgeMs now updatedAt /
            (halfLifeDays * (24 * 60 * 60 * 1000))))) ∧
    (0 < score → score ≤ 1 → 0 < halfLifeDays →
      computeDecayScore now score updatedAt halfLifeDays ≤ score) ∧
    (0 < score → score ≤ 1 → 0 < halfLifeDays →
      (computeDecayScore now score updatedAt halfLifeDays = score ↔
        decayAgeMs now updatedAt = 0)) ∧
    (halfLifeDays ≤ 0 → computeDecayScore now score updatedAt halfLifeDays = score) := by
  have hage : (0 : ℝ) ≤ decayAgeMs now updatedAt := le_max_left 0 _
  have hformula : 0 < halfLifeDays →
      computeDecayScore now score updatedAt halfLifeDays
        = score * Real.exp (-(decayAgeMs now updatedAt /
            (halfLifeDays * (24 * 60 * 60 * 1000)))) := by
    intro hday
    have hm : 0 < halfLifeDays * (24 * 60 * 60 * 1000) := by
      have : (0 : ℝ) < 24 * 60 * 60 * 1000 := by norm_num
      exact mul_pos hday this
    rw [computeDecayScore, decayAgeMs]
    rw [if_neg (not_le.mpr hm)]
  refine ⟨hformula, ?_, ?_, ?_⟩
  · intro hs hs1 hday
    have hm : 0 < halfLifeDays * (24 * 60 * 60 * 1000) := by
      have : (0 : ℝ) < 24 * 60 * 60 * 1000 := by norm_num
      exact mul_pos hday this
    rw [hformula hday]
    have hx : -(decayAgeMs now updatedAt / (halfLifeDays * (24 * 60 * 60 * 1000))) ≤ 0 := by
      have := div_nonneg hage (le_of_lt hm)
      linarith
    have hexp : Real.exp (-(decayAgeMs now updatedAt /
        (halfLifeDays * (24 * 60 * 60 * 1000)))) ≤ 1 := by
      rw [Real.exp_le_one_iff]
      exact hx
    calc score * Real.exp (-(decayAgeMs now updatedAt /
          (halfLifeDays * (24 * 60 * 60 * 1000))))
        ≤ score * 1 := by
          exact mul_le_mul_of_nonneg_left hexp (le_of_lt hs)
      _ = score := mul_one score
  · intro hs _ hday
    have hm : 0 < halfLifeDays * (24 * 60 * 60 * 1000) := by
      have : (0 : ℝ) < 24 * 60 * 60 * 1000 := by norm_num
      exact mul_pos hday this
    rw [hformula hday]
    constructor
    · intro heq
      have hone : Real.exp (-(decayAgeMs now updatedAt /
          (halfLifeDays * (24 * 60 * 60 * 1000)))) = 1 := by
        have := mul_right_eq_self₀.mp (by linarith [heq] : score *
          Real.exp (-(decayAgeMs now updatedAt /
            (halfLifeDays * (24 * 60 * 60 * 1000)))) = score)
        rcases this with h1 | h0
        · exact h1
        · exact absurd h0 (ne_of_gt hs)
      rw [Real.exp_eq_one_iff, neg_eq_zero, div_eq_zero_iff] at hone
      rcases hone with h1 | h2
      · exact h1
      · exact absurd h2 (ne_of_gt hm)
    · intro hzero
      rw [hzero]
      simp
  · intro hle
    have hm : halfLifeDays * (24 * 60 * 60 * 1000) ≤ 0 := by
      calc halfLifeDays * (24 * 60 * 60 * 1000)
          ≤ 0 * (24 * 60 * 60 * 1000) := by
            exact mul_le_mul_of_nonneg_right hle (by norm_num)
        _ = 0 := by ring
    rw [computeDecayScore]
    rw [if_pos hm]

/-- C4 witness: decay disabled for a nonpositive half-life, and the
bound at a concrete positive half-life. -/
theorem claim_C4_computeDecayScore_witness :
    computeDecayScore 86400000 1 0 (-3) = 1 ∧
    computeDecayScore 86400000 (1/2) 1 30 ≤ 1/2 :=
  ⟨(claim_C4_computeDecayScore 86400000 1 0 (-3)).2.2.2 (by norm_num),
   (claim_C4_computeDecayScore 86400000 (1/2) 1 30).2.1 (by norm_num) (by norm_num)
     (by norm_num)⟩

/- ==================================================================
   Claim C8 — the recall gate checks length first.
   ================================================================== -/

/-- C8: in both cited gates the length check comes first — a missing,
empty or too-short prompt (under 3 characters for the goal layer, under
5 for the episodic/procedural layer) never reaches recall, even with
`alwaysRecall` configured; and `alwaysRecall` is consulted only for
prompts that pass the length check, where it forces the gate open. -/
theorem claim_C8_recall_gate :
    (∀ alwaysRecall : Bool, goalGatePasses alwaysRecall none = false) ∧
    (∀ (alwaysRecall : Bool) (p : String), p.length < 3 →
        goalGatePasses alwaysRecall (some p) = false) ∧
    (∀ p : String, 3 ≤ p.length → goalGatePasses true (some p) = true) ∧
    (∀ e1 e2 e3 e4 : Bool, epiprocGatePasses e1 e2 e3 e4 none = false) ∧
    (∀ (e1 e2 e3 e4 : Bool) (p : String), p.length < 5 →
        epiprocGatePasses e1 e2 e3 e4 (some p) = false) ∧
    (∀ p : String, 5 ≤ p.length →
        epiprocGatePasses true true true true (some p) = true) := by
  refine ⟨?_, ?_, ?_, ?_, ?_, ?_⟩
  · intro a
    simp [goalGatePasses]
  · intro a p h
    simp [goalGatePasses, h]
  · intro p h
    have hne : ¬p = "" := by
      intro he
      rw [he] at h
      simp at h
    simp [goalGatePasses, hne, Nat.not_lt.mpr h]
  · intro e1 e2 e3 e4
    simp [epiprocGatePasses]
  · intro e1 e2 e3 e4 p h
    simp [epiprocGatePasses, h]
  · intro p h
    have hne : ¬p = "" := by
      intro he
      rw [he] at h
      simp at h
    simp [epiprocGatePasses, hne, Nat.not_lt.mpr h]

/-- C8 witness: concrete short prompts are rejected despite
`alwaysRecall`; concrete prompts at the minimum length pass with
`alwaysRecall`. -/
theorem claim_C8_recall_gate_witness :
    goalGatePasses true (some "hi") = false ∧
    epiprocGatePasses true true true true (some "hola") = false ∧
    goalGatePasses true (some "abc") = true ∧
    epiprocGatePasses true true true true (some "abcde") = true :=
  ⟨claim_C8_recall_gate.2.1 true "hi" (by decide),
   claim_C8_recall_gate.2.2.2.2.1 true true true true "hola" (by decide),
   claim_C8_recall_gate.2.2.1 "abc" (by decide),
   claim_C8_recall_gate.2.2.2.2.2 "abcde" (by decide)⟩

/- ==================================================================
   Claim C10 — truncate at the formatting boundary.
   ================================================================== -/

/-- C10 counterexample: `trim()` strips LEADING whitespace too, so the
result is not "the first maxChars characters with trailing whitespace
trimmed plus `...`" (`truncate("  abcdef", 4)` is `"ab..."`, not
`"  ab..."`); and the rerank variant appends the single character `"…"`,
not the three-character `"..."`. -/
theorem claim_C10_counterexample :
    truncate "  abcdef" 4 ≠ "  ab" ++ "..." ∧
    truncateRerank "abcdef" 4 ≠ "abcd" ++ "..." := by
  constructor
  · decide
  · decide

/-- C10 amended: truncation is not a strict length bound — `truncate`
returns `s` unchanged when `s.length ≤ maxChars`, and otherwise returns
the first `maxChars` characters with leading AND trailing whitespace
trimmed plus an ellipsis suffix: the three-character `"..."` in the
goal/timeline/entity/episodic/tool-skill variant (result length at most
`maxChars + 3`) and the single-character `"…"` in the rerank variant
(result length at most `maxChars + 1`). -/
theorem claim_C10_truncate_amended (s : String) (maxChars : ℕ) :
    (s.length ≤ maxChars → truncate s maxChars = s ∧ truncateRerank s maxChars = s) ∧
    (maxChars < s.length →
      truncate s maxChars = String.mk (jsTrim (s.toList.take maxChars)) ++ "..." ∧
      (truncate s maxChars).length ≤ maxChars + 3 ∧
      truncateRerank s maxChars = String.mk (jsTrim (s.toList.take maxChars)) ++ "…" ∧
      (truncateRerank s maxChars).length ≤ maxChars + 1) := by
  constructor
  · intro h
    by_cases he : s = ""
    · simp [truncate, truncateRerank, he]
    · simp [truncate, truncateRerank, he, h]
  · intro h
    have he : ¬s = "" := by
      intro he
      rw [he] at h
      simp at h
    have hnle : ¬s.length ≤ maxChars := Nat.not_le.mpr h
    have h1 : (jsTrim (s.toList.take maxChars)).length
        ≤ (s.toList.take maxChars).length := by
      simp only [jsTrim, List.length_reverse]
      refine le_trans (List.dropWhile_sublist _).length_le ?_
      rw [List.length_reverse]
      exact (List.dropWhile_sublist _).length_le
    have htrim : (jsTrim (s.toList.take maxChars)).length ≤ maxChars := by
      refine le_trans h1 ?_
      rw [List.length_take]
      exact min_le_left _ _
    have e1 : truncate s maxChars = String.mk (jsTrim (s.toList.take maxChars)) ++ "..." := by
      simp [truncate, he, hnle]
    have e2 : truncateRerank s maxChars
        = String.mk (jsTrim (s.toList.take maxChars)) ++ "…" := by
      simp [truncateRerank, he, hnle]
    refine ⟨e1, ?_, e2, ?_⟩
    · have : (truncate s maxChars).length
          = (jsTrim (s.toList.take maxChars)).length + 3 := by
        rw [e1, String.length_append]
        rfl
      omega
    · have : (truncateRerank s maxChars).length
          = (jsTrim (s.toList.take maxChars)).length + 1 := by
        rw [e2, String.length_append]
        rfl
      omega

/-- C10 witness: the amended theorem applied at a short string and at
the counterexample inputs. -/
theorem claim_C10_truncate_witness :
    truncate "abc" 5 = "abc" ∧
    truncate "  abcdef" 4 = String.mk (jsTrim ("  abcdef".toList.take 4)) ++ "..." ∧
    truncateRerank "abcdef" 4 = String.mk (jsTrim ("abcdef".toList.take 4)) ++ "…" :=
  ⟨((claim_C10_truncate_amended "abc" 5).1 (by decide)).1,
   ((claim_C10_truncate_amended "  abcdef" 4).2 (by decide)).1,
   ((claim_C10_truncate_amended "abcdef" 4).2 (by decide)).2.2.1⟩

/- ==================================================================
   Claim C1 — capture failures must not propagate (code bug in the
   entity plugin: its agent_end capture loop has no try/catch).
   ================================================================== -/

/-- C1: at the failing input — an `agent_end` turn that captures one
summary while the embedding provider fails — the goal plugin's capture
loop returns normally with a logged warning, but the entity plugin's
capture loop (whose `await embed`/`store` calls are not wrapped in
`try`/`catch`) propagates the error out of the handler, contradicting
the claim that every handler returns normally. -/
theorem claim_C1_entity_capture_propagates :
    entityCaptureLoop (fun _ => Except.error "embedding provider down")
        ["Entity: Acme\nType: client\nDetails: key account"]
      = Except.error "embedding provider down" ∧
    goalCaptureLoop (fun _ => Except.error "embedding provider down")
        ["Goal: ship v2\nStatus: active\nPriority: \nOwner: \nDetails: "]
      = ["memory-goal: capture failed: embedding provider down"] := by
  constructor
  · rfl
  · rfl

/- ==================================================================
   Claim C2 — redaction before persistence (code bug in the timeline
   plugin: its capture path never redacts).
   ================================================================== -/

set_option maxRecDepth 100000 in
/-- C2: at the failing input — a turn whose text contains
`"event: deploy token: abcdef123456"` — the timeline plugin extracts
the event and builds the summary it embeds and stores, and that stored
text still contains the secret `token: abcdef123456` (the timeline
plugin contains no `redactSensitive` call and no redaction
configuration), even though the shared redactor would have masked it;
by contrast the goal layer's capture summary passes through
`redactSensitive` and masks the same secret. -/
theorem claim_C2_timeline_capture_not_redacted :
    extractEvents "event: deploy token: abcdef123456"
      = ["deploy token: abcdef123456"] ∧
    containsSub
        (timelineCaptureSummary "deploy token: abcdef123456"
          "2026-01-01T00:00:00.000Z" "2026-01-02T00:00:00.000Z" 1200)
        "token: abcdef123456" = true ∧
    redactSensitive
        (timelineCaptureSummary "deploy token: abcdef123456"
          "2026-01-01T00:00:00.000Z" "2026-01-02T00:00:00.000Z" 1200) true
      ≠ timelineCaptureSummary "deploy token: abcdef123456"
          "2026-01-01T00:00:00.000Z" "2026-01-02T00:00:00.000Z" 1200 ∧
    containsSub
        (goalCaptureSummary "rotate credentials" "active" "" ""
          "token: abcdef123456" 1200 true)
        "token: abcdef123456" = false ∧
    containsSub
        (goalCaptureSummary "rotate credentials" "active" "" ""
          "token: abcdef123456" 1200 true)
        "[redacted]" = true := by
  refine ⟨?_, ?_, ?_, ?_, ?_⟩
  · decide
  · decide
  · decide
  · decide
  · decide

/- ==================================================================
   Claim C9 — redaction of `token: <value>`.
   ================================================================== -/

/-- A global replace leaves the text unchanged when the matcher fails
at every position (every suffix of the input). -/
theorem replaceAllGo_of_nomatch (m : List Char → Option (List Char)) (repl : List Char) :
    ∀ (fuel : ℕ) (cs : List Char), (∀ cs', cs' <:+ cs → m cs' = none) →
      replaceAllGo m repl fuel cs = cs := by
  intro fuel
  induction fuel with
  | zero => intro cs _; rfl
  | succ f ih =>
    intro cs h
    cases cs with
    | nil => rfl
    | cons c cs0 =>
      have hm : m (c :: cs0) = none := h (c :: cs0) List.suffix_rfl
      have hrest : ∀ cs', cs' <:+ cs0 → m cs' = none := fun cs' hs =>
        h cs' (hs.trans (List.suffix_cons c cs0))
      simp [replaceAllGo, hm, ih cs0 hrest]

/-- `replaceAll` version of the no-match lemma. -/
theorem replaceAll_of_nomatch (m : List Char → Option (List Char)) (repl : List Char)
    (cs : List Char) (h : ∀ cs', cs' <:+ cs → m cs' = none) :
    replaceAll m repl cs = cs :=
  replaceAllGo_of_nomatch m repl cs.length cs h

/-- When the matcher consumes the whole (nonempty) input at position 0,
the global replace returns exactly the replacement text. -/
theorem replaceAll_of_full_match (m : List Char → Option (List Char)) (repl : List Char)
    (c : Char) (cs0 : List Char) (h : m (c :: cs0) = some []) :
    replaceAll m repl (c :: cs0) = repl := by
  have : replaceAllGo m repl cs0.length [] = [] := by
    cases cs0.length <;> rfl
  simp [replaceAll, replaceAllGo, h, this]

/-- A suffix of `p ++ w` is a suffix of `w`, or a nonempty suffix of
`p` followed by all of `w`. -/
theorem suffix_append_cases {l p w : List Char} (h : l <:+ p ++ w) :
    l <:+ w ∨ ∃ pp, pp <:+ p ∧ pp ≠ [] ∧ l = pp ++ w := by
  induction p with
  | nil => exact Or.inl (by simpa using h)
  | cons a p' ih =>
    rcases List.suffix_cons_iff.mp (by simpa using h) with he | hs
    · exact Or.inr ⟨a :: p', List.suffix_rfl, by simp, by simpa using he⟩
    · rcases ih hs with h1 | ⟨pp, hpp, hne, he⟩
      · exact Or.inl h1
      · exact Or.inr ⟨pp, hpp.trans (List.suffix_cons a p'), hne, he⟩

/-- Alphanumeric characters are not JS whitespace. -/
theorem alnum_not_jsSpace {c : Char} (h : c.isAlphanum = true) : isJsSpace c = false := by
  cases hc : isJsSpace c
  · rfl
  · exfalso
    simp only [isJsSpace, Bool.or_eq_true, decide_eq_true_eq] at hc
    rcases hc with (((((h1 | h1) | h1) | h1) | h1) | h1) | h1 <;>
      (subst h1; exact absurd h (by decide))

/-- A successful case-insensitive literal match returns a suffix of the
input. -/
theorem matchCI_some_suffix :
    ∀ (pat l r : List Char), matchCI pat l = some r → r <:+ l := by
  intro pat
  induction pat with
  | nil =>
    intro l r h
    simp [matchCI] at h
    exact h ▸ List.suffix_rfl
  | cons k ks ih =>
    intro l r h
    cases l with
    | nil => simp [matchCI] at h
    | cons c cs =>
      by_cases hk : c.toLower = k
      · simp [matchCI, hk] at h
        exact (ih cs r h).trans (List.suffix_cons c cs)
      · simp [matchCI, hk] at h

/-- `\s*[:=]\s*\S+` cannot match inside purely alphanumeric text: the
mandatory `:` or `=` never appears. -/
theorem matchKeyTail_alnum {l : List Char} (h : l.all Char.isAlphanum = true) :
    matchKeyTail l = none := by
  cases l with
  | nil => rfl
  | cons c ls =>
    have hca : c.isAlphanum = true := by
      simp [List.all_cons] at h
      exact h.1
    have hskip : skipWs (c :: ls) = c :: ls := by
      simp [skipWs, List.dropWhile_cons, alnum_not_jsSpace hca]
    have hc1 : ¬c = ':' := fun he => by subst he; exact absurd hca (by decide)
    have hc2 : ¬c = '=' := fun he => by subst he; exact absurd hca (by decide)
    simp [matchKeyTail, hskip, hc1, hc2]

/-- All-alphanumeric is preserved by suffixes. -/
theorem all_alnum_of_suffix {l r : List Char} (hs : r <:+ l)
    (h : l.all Char.isAlphanum = true) : r.all Char.isAlphanum = true := by
  rw [List.all_eq_true] at h ⊢
  exact fun x hx => h x (hs.sublist.subset hx)

/-- The `sk-` masking pattern cannot match inside purely alphanumeric
text: the mandatory `-` never appears. -/
theorem matchSkAt_alnum {l : List Char} (h : l.all Char.isAlphanum = true) :
    matchSkAt l = none := by
  match l with
  | [] => rfl
  | [c1] => rfl
  | [c1, c2] => rfl
  | c1 :: c2 :: c3 :: rest =>
    have hc3 : c3.isAlphanum = true := by
      simp [List.all_cons] at h
      exact h.2.2.1
    have : ¬c3 = '-' := fun he => by subst he; exact absurd hc3 (by decide)
    simp [matchSkAt, this]

/-- The `api[_-]?key…` masking pattern cannot match inside purely
alphanumeric text. -/
theorem matchApiKeyAt_alnum {l : List Char} (h : l.all Char.isAlphanum = true) :
    matchApiKeyAt l = none := by
  cases hm : matchCI ['a', 'p', 'i'] l with
  | none => simp [matchApiKeyAt, hm]
  | some cs1 =>
    have hcs1 : cs1.all Char.isAlphanum = true :=
      all_alnum_of_suffix (matchCI_some_suffix _ _ _ hm) h
    cases cs1 with
    | nil => simp [matchApiKeyAt, hm]
    | cons c cs2 =>
      have hca : c.isAlphanum = true := by
        simp [List.all_cons] at hcs1
        exact hcs1.1
      have hc1 : ¬c = '_' := fun he => by subst he; exact absurd hca (by decide)
      have hc2 : ¬c = '-' := fun he => by subst he; exact absurd hca (by decide)
      cases hk : matchCI ['k', 'e', 'y'] (c :: cs2) with
      | none => simp [matchApiKeyAt, hm, hc1, hc2, hk]
      | some r =>
        have hr : r.all Char.isAlphanum = true :=
          all_alnum_of_suffix (matchCI_some_suffix _ _ _ hk) hcs1
        simp [matchApiKeyAt, hm, hc1, hc2, hk, matchKeyTail_alnum hr]

/-- The `bearer\s+\S+` masking pattern cannot match inside purely
alphanumeric text: the mandatory whitespace never appears. -/
theorem matchBearerAt_alnum {l : List Char} (h : l.all Char.isAlphanum = true) :
    matchBearerAt l = none := by
  cases hm : matchCI ['b', 'e', 'a', 'r', 'e', 'r'] l with
  | none => simp [matchBearerAt, hm]
  | some cs1 =>
    have hcs1 : cs1.all Char.isAlphanum = true :=
      all_alnum_of_suffix (matchCI_some_suffix _ _ _ hm) h
    cases cs1 with
    | nil => simp [matchBearerAt, hm]
    | cons c cs2 =>
      have hca : c.isAlphanum = true := by
        simp [List.all_cons] at hcs1
        exact hcs1.1
      simp [matchBearerAt, hm, alnum_not_jsSpace hca]

/-- The `authorization…` masking pattern cannot match inside purely
alphanumeric text. -/
theorem matchAuthAt_alnum {l : List Char} (h : l.all Char.isAlphanum = true) :
    matchAuthAt l = none := by
  cases hm : matchCI ['a', 'u', 't', 'h', 'o', 'r', 'i', 'z', 'a', 't', 'i', 'o', 'n'] l with
  | none => simp [matchAuthAt, hm]
  | some cs1 =>
    have hcs1 : cs1.all Char.isAlphanum = true :=
      all_alnum_of_suffix (matchCI_some_suffix _ _ _ hm) h
    simp [matchAuthAt, hm, matchKeyTail_alnum hcs1]

/-- `api…` cannot match at a position whose first character is not a
case-insensitive `a`. -/
theorem matchApiKeyAt_head {c : Char} (rest : List Char) (h : ¬c.toLower = 'a') :
    matchApiKeyAt (c :: rest) = none := by
  simp [matchApiKeyAt, matchCI, h]

/-- `authorization…` cannot match at a position whose first character
is not a case-insensitive `a`. -/
theorem matchAuthAt_head {c : Char} (rest : List Char) (h : ¬c.toLower = 'a') :
    matchAuthAt (c :: rest) = none := by
  simp [matchAuthAt, matchCI, h]

/-- `bearer…` cannot match at a position whose first character is not a
case-insensitive `b`. -/
theorem matchBearerAt_head {c : Char} (rest : List Char) (h : ¬c.toLower = 'b') :
    matchBearerAt (c :: rest) = none := by
  simp [matchBearerAt, matchCI, h]

/-- `sk-…` cannot match at a position whose first character is not `s`. -/
theorem matchSkAt_head {c : Char} (rest : List Char) (h : ¬c = 's') :
    matchSkAt (c :: rest) = none := by
  match rest with
  | [] => rfl
  | [c2] => rfl
  | c2 :: c3 :: r3 => simp [matchSkAt, h]

/-- In `"token: " ++ v` with `v` alphanumeric, the `sk-` pattern
matches nowhere. -/
theorem skAt_nomatch_on_token (v : List Char) (hv : v.all Char.isAlphanum = true) :
    ∀ cs', cs' <:+ ("token: ".toList ++ v) → matchSkAt cs' = none := by
  intro cs' hsuf
  rcases suffix_append_cases hsuf with hw | ⟨pp, hpp, hne, he⟩
  · exact matchSkAt_alnum (all_alnum_of_suffix hw hv)
  · subst he
    cases pp with
    | nil => exact absurd rfl hne
    | cons c pp' =>
      have hc : c ∈ "token: ".toList := hpp.sublist.subset (List.mem_cons_self c pp')
      have hca : ¬c = 's' := by
        rcases (by simpa using hc) with h | h | h | h | h | h | h <;> (subst h; decide)
      exact matchSkAt_head (pp' ++ v) hca

/-- In `"token: " ++ v` with `v` alphanumeric, the `api…key` pattern
matches nowhere. -/
theorem apiKeyAt_nomatch_on_token (v : List Char) (hv : v.all Char.isAlphanum = true) :
    ∀ cs', cs' <:+ ("token: ".toList ++ v) → matchApiKeyAt cs' = none := by
  intro cs' hsuf
  rcases suffix_append_cases hsuf with hw | ⟨pp, hpp, hne, he⟩
  · exact matchApiKeyAt_alnum (all_alnum_of_suffix hw hv)
  · subst he
    cases pp with
    | nil => exact absurd rfl hne
    | cons c pp' =>
      have hc : c ∈ "token: ".toList := hpp.sublist.subset (List.mem_cons_self c pp')
      have hca : ¬c.toLower = 'a' := by
        rcases (by simpa using hc) with h | h | h | h | h | h | h <;> (subst h; decide)
      exact matchApiKeyAt_head (pp' ++ v) hca

/-- In `"token: " ++ v` with `v` alphanumeric, the `bearer` pattern
matches nowhere. -/
theorem bearerAt_nomatch_on_token (v : List Char) (hv : v.all Char.isAlphanum = true) :
    ∀ cs', cs' <:+ ("token: ".toList ++ v) → matchBearerAt cs' = none := by
  intro cs' hsuf
  rcases suffix_append_cases hsuf with hw | ⟨pp, hpp, hne, he⟩
  · exact matchBearerAt_alnum (all_alnum_of_suffix hw hv)
  · subst he
    cases pp with
    | nil => exact absurd rfl hne
    | cons c pp' =>
      have hc : c ∈ "token: ".toList := hpp.sublist.subset (List.mem_cons_self c pp')
      have hca : ¬c.toLower = 'b' := by
        rcases (by simpa using hc) with h | h | h | h | h | h | h <;> (subst h; decide)
      exact matchBearerAt_head (pp' ++ v) hca

/-- The `token` pattern consumes all of `"token: " ++ v` at position 0
when `v` is a nonempty alphanumeric value. -/
theorem matchTokenAt_full (d : Char) (vs : List Char) (hd : d.isAlphanum = true)
    (hvs : vs.all Char.isAlphanum = true) :
    matchTokenAt ('t' :: 'o' :: 'k' :: 'e' :: 'n' :: ':' :: ' ' :: d :: vs) = some [] := by
  have hdrop : vs.dropWhile (fun x => !isJsSpace x) = [] := by
    rw [List.dropWhile_eq_nil_iff]
    intro x hx
    have hxa : x.isAlphanum = true := by
      rw [List.all_eq_true] at hvs
      exact hvs x hx
    simp [alnum_not_jsSpace hxa]
  have e3 : List.dropWhile isJsSpace (d :: vs) = d :: vs := by
    simp [List.dropWhile_cons, alnum_not_jsSpace hd]
  have estep : matchTokenAt ('t' :: 'o' :: 'k' :: 'e' :: 'n' :: ':' :: ' ' :: d :: vs)
      = (match List.dropWhile isJsSpace (d :: vs) with
         | [] => none
         | c :: cs4 =>
           if isJsSpace c then none
           else some (cs4.dropWhile (fun x => !isJsSpace x))) := rfl
  rw [estep, e3]
  simp [alnum_not_jsSpace hd, hdrop]

/-- C9: with redaction enabled, the `token` masking pattern replaces
the whole `token: <value>` span with the literal placeholder — for
every nonempty alphanumeric value, `redactSensitive("token: " ++ v)`
yields exactly `"[redacted]"`; the same holds case-insensitively (e.g.
`"TOKEN: …"`, `"ToKeN= …"`) and in surrounding context, where the span
is replaced wherever it occurs in the text. -/
theorem claim_C9_redactSensitive :
    (∀ v : String, v.toList ≠ [] → v.toList.all Char.isAlphanum = true →
      redactSensitive ("token: " ++ v) true = "[redacted]") ∧
    redactSensitive "TOKEN: abcdef123456" true = "[redacted]" ∧
    redactSensitive "ToKeN= abcdef123456" true = "[redacted]" ∧
    redactSensitive "see token: abcdef123456 ok" true = "see [redacted] ok" := by
  refine ⟨?_, by decide, by decide, by decide⟩
  intro v hne hv
  have hdata : ("token: " ++ v).toList = "token: ".toList ++ v.toList :=
    String.data_append _ _
  have hne2 : ¬("token: " ++ v) = "" := by
    intro h0
    have h1 : ("token: " ++ v).toList = "".toList := congrArg String.toList h0
    rw [hdata] at h1
    exact absurd (List.append_eq_nil.mp h1).1 (by decide)
  obtain ⟨d, vs, hdv⟩ := List.exists_cons_of_ne_nil hne
  have hd : d.isAlphanum = true := by
    rw [hdv, List.all_cons] at hv
    exact (Bool.and_eq_true _ _).mp hv |>.1
  have hvs : vs.all Char.isAlphanum = true := by
    rw [hdv, List.all_cons] at hv
    exact (Bool.and_eq_true _ _).mp hv |>.2
  have hs1 : replaceAll matchSkAt ("[redacted]".toList) ("token: ".toList ++ v.toList)
      = "token: ".toList ++ v.toList :=
    replaceAll_of_nomatch _ _ _ (skAt_nomatch_on_token v.toList hv)
  have hs2 : replaceAll matchApiKeyAt ("[redacted]".toList) ("token: ".toList ++ v.toList)
      = "token: ".toList ++ v.toList :=
    replaceAll_of_nomatch _ _ _ (apiKeyAt_nomatch_on_token v.toList hv)
  have hs3 : replaceAll matchTokenAt ("[redacted]".toList) ("token: ".toList ++ v.toList)
      = "[redacted]".toList := by
    rw [hdv]
    exact replaceAll_of_full_match _ _ 't' _ (matchTokenAt_full d vs hd hvs)
  have hs4 : replaceAll matchBearerAt ("[redacted]".toList) ("[redacted]".toList)
      = "[redacted]".toList := by decide
  have hs5 : replaceAll matchAuthAt ("[redacted]".toList) ("[redacted]".toList)
      = "[redacted]".toList := by decide
  have hbody : redactSensitiveL (("token: " ++ v).toList) = "[redacted]".toList := by
    rw [hdata]
    rw [redactSensitiveL, hs1, hs2, hs3, hs4, hs5]
  rw [redactSensitive]
  simp only [hne2, Bool.not_true, Bool.false_or, if_false]
  rw [hbody]
  rfl

/-- C9 witness: the universal part applied at the claim's concrete
scenario value `abcdef123456`. -/
theorem claim_C9_redactSensitive_witness :
    redactSensitive ("token: " ++ "abcdef123456") true = "[redacted]" :=
  claim_C9_redactSensitive.1 "abcdef123456" (by decide) (by decide)
